import Mathlib

/-!
Shallow embedding of the YoshimuraGenerator pattern engine
(src/utils.py, src/draw_yoshimora.py, src/yoshimora_miura_plastic.py,
src/updated_yoshimora.py).

Points are pairs of reals; angles are degrees, converted to radians by
multiplying with pi / 180 exactly as Python's math.radians does.  The DXF
drawing sink is modelled as an ordered list of primitives; each draw
operation returns the list of primitives it appends, in emission order.
Python code that can raise (division by zero in normalize_vector, the
draft tape branch reading an attribute that is never assigned) is
modelled with Option: none means the call raises before emitting.
-/

namespace Yoshimura

open Real

/-- A 2D point, as utils.py works with (x, y) float pairs. -/
abbrev Point := ℝ × ℝ

/-- utils.end_point_of_line: starting point plus length times
(cos, sin) of the angle in degrees. -/
noncomputable def end_point_of_line (p : Point) (length angle : ℝ) : Point :=
  (p.1 + length * Real.cos (angle * π / 180),
   p.2 + length * Real.sin (angle * π / 180))

/-- utils.vector_difference. -/
def vector_difference (v w : Point) : Point :=
  (v.1 - w.1, v.2 - w.2)

/-- utils.vector_sum. -/
def vector_sum (v w : Point) : Point :=
  (v.1 + w.1, v.2 + w.2)

/-- utils.vector_multiply. -/
def vector_multiply (v : Point) (s : ℝ) : Point :=
  (v.1 * s, v.2 * s)

/-- utils.normalize_vector: divides by sqrt(x^2 + y^2).  Python raises
ZeroDivisionError when the norm is zero; that error path is `none`. -/
noncomputable def normalize_vector (v : Point) : Option Point :=
  let norm := Real.sqrt (v.1 ^ 2 + v.2 ^ 2)
  if norm = 0 then none else some (v.1 / norm, v.2 / norm)

/-- A primitive appended to the DXF drawing sink: dxf.line or dxf.polyline. -/
inductive Prim
  | line (p q : Point)
  | polyline (pts : List Point)

/-- The fields of draw_yoshimora.Branch (and the identical
yoshimora_miura_plastic.Branch). -/
structure BranchData where
  position : Point
  end_point : Point
  length : ℝ
  angle : ℝ
  beam_count : ℕ
  panel_gap : ℝ
  beam_gap : ℝ
  beam_length : ℝ
  beam_width : ℝ

/-- Branch.__init__: stores the start point and computes
end_point = end_point_of_line(start_point, length, angle). -/
noncomputable def mkBranch (start_point : Point) (length angle : ℝ)
    (beam_count : ℕ) (panel_gap beam_gap beam_length beam_width : ℝ) :
    BranchData :=
  { position := start_point
    end_point := end_point_of_line start_point length angle
    length := length
    angle := angle
    beam_count := beam_count
    panel_gap := panel_gap
    beam_gap := beam_gap
    beam_length := beam_length
    beam_width := beam_width }

/-- Branch._get_extremity_length.  Python subtracts 1 from beam_count as an
int before multiplying, so the cast happens on beam_count itself. -/
noncomputable def get_extremity_length (b : BranchData) : ℝ :=
  (b.length - b.beam_length * (b.beam_count : ℝ)
    - b.beam_gap * ((b.beam_count : ℝ) - 1)) / 2

/-- Branch._draw_extremity_line: two dxf.line primitives, one anchored at
the start point running along the branch angle, one anchored at the end
point running back (angle - 180). -/
noncomputable def extremity_line_prims (b : BranchData) (ang ext : ℝ) :
    List Prim :=
  let sp1 := end_point_of_line b.position (b.panel_gap / 2) ang
  let ep1 := end_point_of_line sp1 ext b.angle
  let sp2 := end_point_of_line b.end_point (b.panel_gap / 2) ang
  let ep2 := end_point_of_line sp2 ext (b.angle - 180)
  [Prim.line sp1 ep1, Prim.line sp2 ep2]

/-- Branch._get_beam_starting_point. -/
noncomputable def beam_starting_point (b : BranchData) (ang ext : ℝ) : Point :=
  end_point_of_line (end_point_of_line b.position (b.panel_gap / 2) ang)
    ext b.angle

/-- Branch._get_beam_points. -/
noncomputable def beam_points (b : BranchData) (sp : Point) (ang : ℝ) :
    Point × Point × Point :=
  let p1 := end_point_of_line sp ((b.beam_width - b.panel_gap) / 2) ang
  let p2 := end_point_of_line p1 b.beam_length b.angle
  let p3 := end_point_of_line p2 ((b.beam_width - b.panel_gap) / 2) (ang + 180)
  (p1, p2, p3)

/-- The loop `for i in range(beam_count)` of Branch.draw_branch, threading
start_point_beam through Branch._draw_beam.  The first argument is the
remaining iteration count (beam_count - i); Python's `if i < beam_count - 1`
appends the trailing gap segment and hands beam_point4 to the next
iteration, the final iteration emits a 4-point polyline. -/
noncomputable def draw_beams (b : BranchData) (ang : ℝ) :
    ℕ → ℕ → Point → List Prim
  | 0, _, _ => []
  | fuel + 1, i, sp =>
    let pts := beam_points b sp ang
    if i < b.beam_count - 1 then
      let p4 := end_point_of_line pts.2.2 b.beam_gap b.angle
      Prim.polyline [sp, pts.1, pts.2.1, pts.2.2, p4] ::
        draw_beams b ang fuel (i + 1) p4
    else
      Prim.polyline [sp, pts.1, pts.2.1, pts.2.2] ::
        draw_beams b ang fuel (i + 1) pts.2.2

/-- Branch.draw_branch: for each side (angle + 90, angle - 90) draw the two
extremity lines then walk beam_count beam units. -/
noncomputable def draw_branch (b : BranchData) : List Prim :=
  let ext := get_extremity_length b
  (extremity_line_prims b (b.angle + 90) ext ++
    draw_beams b (b.angle + 90) b.beam_count 0
      (beam_starting_point b (b.angle + 90) ext)) ++
  (extremity_line_prims b (b.angle - 90) ext ++
    draw_beams b (b.angle - 90) b.beam_count 0
      (beam_starting_point b (b.angle - 90) ext))

/-- yoshimora_miura_plastic.BranchTape._get_beam_starting_point. -/
noncomputable def tape_beam_starting_point (b : BranchData) (ext : ℝ) : Point :=
  end_point_of_line
    (end_point_of_line b.position (b.beam_width / 2) (b.angle - 90))
    ext b.angle

/-- yoshimora_miura_plastic.BranchTape._get_beam_points: the four corners of
one full-width rectangular slot, walked width/length/width/length. -/
noncomputable def tape_beam_points (b : BranchData) (sp : Point) :
    Point × Point × Point × Point :=
  let p1 := end_point_of_line sp b.beam_width (b.angle + 90)
  let p2 := end_point_of_line p1 b.beam_length b.angle
  let p3 := end_point_of_line p2 b.beam_width (b.angle - 90)
  let p4 := end_point_of_line p3 b.beam_length (b.angle + 180)
  (p1, p2, p3, p4)

/-- The loop of yoshimora_miura_plastic.BranchTape._draw_branch: beam_count
closed slots, the walking start point advancing by beam_length + beam_gap. -/
noncomputable def draw_tape_beams (b : BranchData) : ℕ → Point → List Prim
  | 0, _ => []
  | fuel + 1, sp =>
    let pts := tape_beam_points b sp
    Prim.polyline [sp, pts.1, pts.2.1, pts.2.2.1, pts.2.2.2] ::
      draw_tape_beams b fuel
        (end_point_of_line sp (b.beam_length + b.beam_gap) b.angle)

/-- yoshimora_miura_plastic.BranchTape._draw_branch. -/
noncomputable def draw_branch_tape (b : BranchData) : List Prim :=
  draw_tape_beams b b.beam_count
    (tape_beam_starting_point b (get_extremity_length b))

/-- draw_yoshimora.BranchTape.draw_branch reads self.start_point, but the
inherited constructor only ever assigns self.position, so this method
raises AttributeError before emitting any primitive; modelled as `none`. -/
def draw_branch_tape_draft (_b : BranchData) : Option (List Prim) :=
  none

/-- Unit direction of an angle given in degrees. -/
noncomputable def dir_vec (a : ℝ) : Point :=
  (Real.cos (a * π / 180), Real.sin (a * π / 180))

/-- The first corner of the k-th tape slot: the branch start, advanced by the
extremity length along the axis, shifted half a width against the normal, then
advanced by k slot pitches (beam_length + beam_gap) along the axis. -/
noncomputable def tape_slot_origin (b : BranchData) (k : ℕ) : Point :=
  vector_sum
    (vector_sum
      (vector_sum b.position
        (vector_multiply (dir_vec b.angle) (get_extremity_length b)))
      (vector_multiply (dir_vec (b.angle + 90)) (-(b.beam_width / 2))))
    (vector_multiply (dir_vec b.angle)
      ((k : ℝ) * (b.beam_length + b.beam_gap)))

/-- The k-th slot of a tape branch written in closed rectangular form:
corner, corner + width*normal, that + length*axis, corner + length*axis,
back to the first corner.  Used to state what draw_branch_tape emits. -/
noncomputable def tape_slot_spec (b : BranchData) (k : ℕ) : List Point :=
  let u := dir_vec b.angle
  let n := dir_vec (b.angle + 90)
  let c := tape_slot_origin b k
  [c,
   vector_sum c (vector_multiply n b.beam_width),
   vector_sum (vector_sum c (vector_multiply n b.beam_width))
     (vector_multiply u b.beam_length),
   vector_sum c (vector_multiply u b.beam_length),
   c]

/-- The fields of draw_yoshimora.BuildingBlockYoshimora. -/
structure BlockData where
  center : Point
  radius : ℝ
  length : ℝ
  angle : ℝ
  beam_count : ℕ
  activated_branch : List Bool
  panel_gap : ℝ
  beam_gap : ℝ
  beam_length : ℝ
  beam_width : ℝ
  tape : Bool

/-- The fixed hexagonal direction list
[0, angle, 180 - angle, 180, 180 + angle, -angle]. -/
noncomputable def block_angles (angle : ℝ) : List ℝ :=
  [0, angle, 180 - angle, 180, 180 + angle, -angle]

/-- BuildingBlockYoshimora.compute_branch_position: hub-offset points at
radius along each direction. -/
noncomputable def block_branch_positions (bb : BlockData) : List Point :=
  (block_angles bb.angle).map fun a => end_point_of_line bb.center bb.radius a

/-- BuildingBlockYoshimora length adaptation for the spine directions
(yoshimora_miura_plastic._get_horizontal_branch_length):
2 cos(angle) (length + 2 radius) - 2 radius. -/
noncomputable def horizontal_branch_length (angle length radius : ℝ) : ℝ :=
  2 * Real.cos (angle * π / 180) * (length + 2 * radius) - 2 * radius

/-- The per-direction branch length chosen in draw_building_block:
the spine indices 0 and 3 get the adapted horizontal length, every other
index keeps the nominal length. -/
noncomputable def branch_length_for (angle length radius : ℝ) (i : ℕ) : ℝ :=
  if i = 0 ∨ i = 3 then horizontal_branch_length angle length radius
  else length

/-- The hub support strut of draw_building_block (drawn for every direction
when not in tape mode): two short ticks at panel_gap/2 on either side of the
branch point, each extended by radius/2 along the normalized direction back
to the hub center, joined by a third line.  normalize_vector can raise. -/
noncomputable def branch_center_support (center pos : Point)
    (ang panel_gap radius : ℝ) : Option (List Prim) :=
  let sp1 := end_point_of_line pos (panel_gap / 2) (ang - 90)
  match normalize_vector (vector_difference center sp1) with
  | none => none
  | some d1 =>
    let e1 := vector_sum sp1 (vector_multiply d1 (radius / 2))
    let sp2 := end_point_of_line pos (panel_gap / 2) (ang + 90)
    match normalize_vector (vector_difference center sp2) with
    | none => none
    | some d2 =>
      let e2 := vector_sum sp2 (vector_multiply d2 (radius / 2))
      some [Prim.line sp1 e1, Prim.line sp2 e2, Prim.line e1 e2]

/-- One iteration of the draw_building_block loop for direction index i with
activation state st: the branch (cut or tape style) if activated, followed by
the support strut when not in tape mode. -/
noncomputable def block_dir_prims (bb : BlockData) (i : ℕ) (st : Bool) :
    Option (List Prim) :=
  let pos := (block_branch_positions bb).getD i (0, 0)
  let ang := (block_angles bb.angle).getD i 0
  let branchPart : Option (List Prim) :=
    if st then
      let len := branch_length_for bb.angle bb.length bb.radius i
      let br := mkBranch pos len ang bb.beam_count bb.panel_gap bb.beam_gap
        bb.beam_length bb.beam_width
      if bb.tape then draw_branch_tape_draft br else some (draw_branch br)
    else some []
  if bb.tape then branchPart
  else
    match branchPart, branch_center_support bb.center pos ang
        bb.panel_gap bb.radius with
    | some bp, some strut => some (bp ++ strut)
    | _, _ => none

/-- The enumerate loop of draw_building_block over the activation mask. -/
noncomputable def draw_block_aux (bb : BlockData) :
    ℕ → List Bool → Option (List Prim)
  | _, [] => some []
  | i, st :: rest =>
    match block_dir_prims bb i st, draw_block_aux bb (i + 1) rest with
    | some p, some q => some (p ++ q)
    | _, _ => none

/-- draw_yoshimora.BuildingBlockYoshimora.draw_building_block. -/
noncomputable def draw_building_block (bb : BlockData) : Option (List Prim) :=
  draw_block_aux bb 0 bb.activated_branch

/-- The fields of draw_yoshimora.YoshimoraTesselation. -/
structure TessData where
  size : ℕ × ℕ
  center : Point
  radius : ℝ
  length : ℝ
  angle : ℝ
  beam_count : ℕ
  panel_gap : ℝ
  beam_gap : ℝ
  beam_length : ℝ
  beam_width : ℝ
  tape : Bool

/-- draw_yoshimora.YoshimoraTesselation.compute_activated_branch (identical
to yoshimora_miura_plastic.YoshimoraTesselation._get_activated_branch),
mutating a [True]*6 list.  size and pos are Python ints, taken over ℤ. -/
def compute_activated_branch (size pos : ℤ × ℤ) : List Bool :=
  let a0 := List.replicate 6 true
  let a1 :=
    if 0 < pos.2 then
      let b := a0.set 3 false
      if 0 < pos.1 then b.set 2 false else b
    else a0
  let a2 :=
    if pos.1 % 2 = 0 ∧ pos.2 = 0 ∧ 0 < pos.1 then a1.set 2 false else a1
  let a3 :=
    if pos.2 < size.2 - 1 ∧ 0 < pos.1 then a2.set 1 false else a2
  let a4 :=
    if pos.2 = size.2 - 1 ∧ pos.1 % 2 = 1 then a3.set 1 false else a3
  a4

/-- updated_yoshimora.YoshimoraTesselation.compute_activated_branch: runs
the same mask computation as above but then returns [True] * 8, discarding
the computed list entirely. -/
def updated_compute_activated_branch (size pos : ℤ × ℤ) : List Bool :=
  let a0 := List.replicate 6 true
  let a1 :=
    if 0 < pos.2 then
      let b := a0.set 3 false
      if 0 < pos.1 then b.set 2 false else b
    else a0
  let a2 :=
    if pos.1 % 2 = 0 ∧ pos.2 = 0 ∧ 0 < pos.1 then a1.set 2 false else a1
  let a3 :=
    if pos.2 < size.2 - 1 ∧ 0 < pos.1 then a2.set 1 false else a2
  let _a4 :=
    if pos.2 = size.2 - 1 ∧ pos.1 % 2 = 1 then a3.set 1 false else a3
  List.replicate 8 true

/-- draw_yoshimora.YoshimoraTesselation.compute_branch_position (identical
to yoshimora_miura_plastic._get_block_center): the x coordinate is taken
from the horizontal move plus the even-row stagger, the y coordinate from
the vertical move along -angle. -/
noncomputable def get_block_center (t : TessData) (pos : ℤ × ℤ) : Point :=
  let offset : ℝ :=
    if pos.1 % 2 = 0 then
      (end_point_of_line (0, 0) (2 * t.radius + t.length) t.angle).1
    else 0
  let vertical := end_point_of_line t.center
    ((pos.1 : ℝ) * (2 * t.radius + t.length)) (-t.angle)
  let horizontal := end_point_of_line t.center
    ((pos.2 : ℝ) * 2 * Real.cos (t.angle * π / 180)
      * (t.length + 2 * t.radius)) 0
  (horizontal.1 + offset, vertical.2)

/-- Modelled from the spec: section 4.6.1's center formula, the origin plus a
row offset of i (2 radius + length) along direction -angle, plus a column
offset of j 2 cos(angle) (length + 2 radius) along direction 0, plus the
even-row stagger (2 radius + length) cos(angle) on the x axis.  Stated here
only to compare the claimed formula with get_block_center. -/
noncomputable def spec_block_center (t : TessData) (pos : ℤ × ℤ) : Point :=
  vector_sum
    (vector_sum
      (vector_sum t.center
        (vector_multiply (dir_vec (-t.angle))
          ((pos.1 : ℝ) * (2 * t.radius + t.length))))
      (vector_multiply (dir_vec 0)
        ((pos.2 : ℝ) * 2 * Real.cos (t.angle * π / 180)
          * (t.length + 2 * t.radius))))
    (if pos.1 % 2 = 0 then
      ((2 * t.radius + t.length) * Real.cos (t.angle * π / 180), 0)
    else (0, 0))

/-- The building block instantiated by draw_tesselation for grid cell (i, j). -/
noncomputable def tess_block (t : TessData) (i j : ℕ) : BlockData :=
  { center := get_block_center t ((i : ℤ), (j : ℤ))
    radius := t.radius
    length := t.length
    angle := t.angle
    beam_count := t.beam_count
    activated_branch := compute_activated_branch
      (((t.size.1 : ℤ)), ((t.size.2 : ℤ))) (((i : ℤ)), ((j : ℤ)))
    panel_gap := t.panel_gap
    beam_gap := t.beam_gap
    beam_length := t.beam_length
    beam_width := t.beam_width
    tape := t.tape }

/-- The inner `for j in range(size[1])` loop of draw_tesselation; the first
ℕ argument is the current column, the second the remaining count. -/
noncomputable def draw_cols (t : TessData) (i : ℕ) : ℕ → ℕ → Option (List Prim)
  | _, 0 => some []
  | j, fuel + 1 =>
    match draw_building_block (tess_block t i j),
        draw_cols t i (j + 1) fuel with
    | some p, some q => some (p ++ q)
    | _, _ => none

/-- The outer `for i in range(size[0])` loop of draw_tesselation. -/
noncomputable def draw_rows (t : TessData) : ℕ → ℕ → Option (List Prim)
  | _, 0 => some []
  | i, fuel + 1 =>
    match draw_cols t i 0 t.size.2, draw_rows t (i + 1) fuel with
    | some p, some q => some (p ++ q)
    | _, _ => none

/-- draw_yoshimora.YoshimoraTesselation.draw_tesselation: the primitives
appended to the shared drawing sink, in emission order. -/
noncomputable def draw_tesselation (t : TessData) : Option (List Prim) :=
  draw_rows t 0 t.size.1

/-- The beam loop of Branch.draw_branch with the drawing sink threaded
explicitly; only the sink grows, mirroring that the Python loop assigns no
attribute of self. -/
noncomputable def draw_beams_state (b : BranchData) (ang : ℝ) :
    ℕ → ℕ → Point → List Prim → List Prim
  | 0, _, _, s => s
  | fuel + 1, i, sp, s =>
    let pts := beam_points b sp ang
    if i < b.beam_count - 1 then
      let p4 := end_point_of_line pts.2.2 b.beam_gap b.angle
      draw_beams_state b ang fuel (i + 1) p4
        (s ++ [Prim.polyline [sp, pts.1, pts.2.1, pts.2.2, p4]])
    else
      draw_beams_state b ang fuel (i + 1) pts.2.2
        (s ++ [Prim.polyline [sp, pts.1, pts.2.1, pts.2.2]])

/-- Branch.draw_branch acting on the pair (branch, drawing sink): the method
reads self and appends to self.drawing; it never assigns any field of self,
so the branch component passes through untouched. -/
noncomputable def draw_branch_state (b : BranchData) (s : List Prim) :
    BranchData × List Prim :=
  let ext := get_extremity_length b
  let s1 := s ++ extremity_line_prims b (b.angle + 90) ext
  let s2 := draw_beams_state b (b.angle + 90) b.beam_count 0
    (beam_starting_point b (b.angle + 90) ext) s1
  let s3 := s2 ++ extremity_line_prims b (b.angle - 90) ext
  let s4 := draw_beams_state b (b.angle - 90) b.beam_count 0
    (beam_starting_point b (b.angle - 90) ext) s3
  (b, s4)

/-! ## Theorems -/

/-- Claim C9: normalize_vector fails with the division-by-zero error exactly
when its input vector has zero length, and returns a result for every other
vector. -/
theorem normalize_vector_none_iff_zero (v : Point) :
    normalize_vector v = none ↔ v = ((0 : ℝ), (0 : ℝ)) := by
  obtain ⟨x, y⟩ := v
  simp only [normalize_vector, Prod.ext_iff]
  by_cases h : Real.sqrt (x ^ 2 + y ^ 2) = 0
  · have hle : x ^ 2 + y ^ 2 ≤ 0 := Real.sqrt_eq_zero'.mp h
    have h1 : x = 0 := by nlinarith [sq_nonneg x, sq_nonneg y]
    have h2 : y = 0 := by nlinarith [sq_nonneg x, sq_nonneg y]
    simp [h, h1, h2]
  · have hne : ¬(x = 0 ∧ y = 0) := by
      rintro ⟨rfl, rfl⟩
      apply h
      norm_num
    simp [h, hne]


/-- Claim C1 (code bug): updated_yoshimora's compute_activated_branch computes
the deactivation mask but returns [True] * 8 unconditionally, so no branch is
ever suppressed; in a 2×2 grid both owners of the spine edge shared by cells
(0,0) and (0,1) keep their overlapping spine branch active (indices 0 and 4 of
the 8-direction block), while the discarded computation would have deactivated
entry 3 for cell (0,1). -/
theorem updated_mask_discarded :
    (∀ size pos : ℤ × ℤ,
      updated_compute_activated_branch size pos = List.replicate 8 true) ∧
    (updated_compute_activated_branch (2, 2) (0, 0)).getD 0 true = true ∧
    (updated_compute_activated_branch (2, 2) (0, 1)).getD 4 true = true ∧
    (compute_activated_branch (2, 2) (0, 1)).getD 3 true = false := by
  refine ⟨fun s p => rfl, by decide, by decide, by decide⟩

/-- Claim C2 counterexample: in a 2×2 grid at cell (i, j) = (1, 0) we have
i > 0, yet branch index 3 stays activated, refuting the claimed rule that
branch 3 is deactivated exactly when i > 0. -/
theorem activated_branch_rule_counterexample :
    (0 : ℤ) < 1 ∧
    (compute_activated_branch (2, 2) (1, 0)).getD 3 true = true := by
  decide

/-- Claim C2 (amended): for every integer cell (i, j) the computed mask has
six entries; entry 3 is deactivated exactly when j > 0; entry 2 exactly when
(i > 0 and j > 0) or (j = 0, i even, i > 0); entry 1 exactly when
(j < cols - 1 and i > 0) or (j = cols - 1 and i odd); entries 0, 4 and 5
always stay true. -/
theorem activated_branch_rule (rows cols i j : ℤ) :
    (compute_activated_branch (rows, cols) (i, j)).length = 6 ∧
    ((compute_activated_branch (rows, cols) (i, j)).getD 3 true = false ↔
      0 < j) ∧
    ((compute_activated_branch (rows, cols) (i, j)).getD 2 true = false ↔
      (0 < i ∧ 0 < j) ∨ (j = 0 ∧ i % 2 = 0 ∧ 0 < i)) ∧
    ((compute_activated_branch (rows, cols) (i, j)).getD 1 true = false ↔
      (j < cols - 1 ∧ 0 < i) ∨ (j = cols - 1 ∧ i % 2 = 1)) ∧
    (compute_activated_branch (rows, cols) (i, j)).getD 0 true = true ∧
    (compute_activated_branch (rows, cols) (i, j)).getD 4 true = true ∧
    (compute_activated_branch (rows, cols) (i, j)).getD 5 true = true := by
  simp only [compute_activated_branch]
  split_ifs <;> simp_all <;> omega

/-- Claim C3: the two spine directions (index 0 and the opposite index 3) are
drawn with length 2 cos θ (length + 2 radius) - 2 radius and every other
direction with the nominal length; at θ = 60°, radius = 2, length = 25 the
spine length is exactly 25, and at θ = 45° and θ = 30° the formula evaluates
to √2 (length + 2 radius) - 2 radius and √3 (length + 2 radius) - 2 radius. -/
theorem spine_length_correction :
    (∀ angle length radius : ℝ, ∀ i : ℕ,
      branch_length_for angle length radius i =
        if i = 0 ∨ i = 3 then
          2 * Real.cos (angle * π / 180) * (length + 2 * radius) - 2 * radius
        else length) ∧
    horizontal_branch_length 60 25 2 = 25 ∧
    (∀ length radius : ℝ, horizontal_branch_length 45 length radius =
      Real.sqrt 2 * (length + 2 * radius) - 2 * radius) ∧
    (∀ length radius : ℝ, horizontal_branch_length 30 length radius =
      Real.sqrt 3 * (length + 2 * radius) - 2 * radius) := by
  refine ⟨fun a l r i => rfl, ?_, ?_, ?_⟩
  · unfold horizontal_branch_length
    have h : (60 : ℝ) * π / 180 = π / 3 := by ring
    rw [h, Real.cos_pi_div_three]
    norm_num
  · intro l r
    unfold horizontal_branch_length
    have h : (45 : ℝ) * π / 180 = π / 4 := by ring
    rw [h, Real.cos_pi_div_four]
    ring
  · intro l r
    unfold horizontal_branch_length
    have h : (30 : ℝ) * π / 180 = π / 6 := by ring
    rw [h, Real.cos_pi_div_six]
    ring

/-- Each iteration of the beam loop emits exactly one polyline. -/
lemma length_draw_beams (b : BranchData) (ang : ℝ) :
    ∀ fuel i sp, (draw_beams b ang fuel i sp).length = fuel := by
  intro fuel
  induction fuel with
  | zero => intro i sp; rfl
  | succ n ih =>
    intro i sp
    rw [draw_beams]
    split_ifs <;> simp [ih]

/-- One cut-style branch emits 4 extremity lines plus beam_count polylines
per side. -/
lemma length_draw_branch (b : BranchData) :
    (draw_branch b).length = 4 + 2 * b.beam_count := by
  simp [draw_branch, extremity_line_prims, length_draw_beams]
  ring

/-- Claim C5 counterexample: a branch whose computed extremity length is
negative (length 1, two beams of length 1) is still drawn in full — all
4 + 2·beam_count primitives are emitted and no validation error occurs. -/
theorem branch_no_feasibility_check :
    get_extremity_length (mkBranch ((0 : ℝ), (0 : ℝ)) 1 0 2 1 0 1 1) < 0 ∧
    (draw_branch (mkBranch ((0 : ℝ), (0 : ℝ)) 1 0 2 1 0 1 1)).length = 8 := by
  constructor
  · norm_num [get_extremity_length, mkBranch]
  · rw [length_draw_branch]
    norm_num [mkBranch]

/-- Claim C5 (amended): the code performs no feasibility validation at all —
whenever the computed extremity length is negative, drawing the branch still
emits the complete set of 4 + 2·beam_count primitives, using the negative
extremity length as-is (no error, no clamping, no truncated output). -/
theorem branch_draws_despite_negative_extremity (b : BranchData)
    (_h : get_extremity_length b < 0) :
    draw_branch b ≠ [] ∧ (draw_branch b).length = 4 + 2 * b.beam_count := by
  constructor
  · apply List.ne_nil_of_length_pos
    rw [length_draw_branch]
    omega
  · exact length_draw_branch b

/-- Witness for Claim C5's amended theorem at a concrete infeasible branch. -/
theorem branch_draws_despite_negative_extremity_witness :
    get_extremity_length (mkBranch ((0 : ℝ), (0 : ℝ)) 3 0 2 2 1 2 1) < 0 ∧
    (draw_branch (mkBranch ((0 : ℝ), (0 : ℝ)) 3 0 2 2 1 2 1) ≠ [] ∧
      (draw_branch (mkBranch ((0 : ℝ), (0 : ℝ)) 3 0 2 2 1 2 1)).length =
        4 + 2 * (mkBranch ((0 : ℝ), (0 : ℝ)) 3 0 2 2 1 2 1).beam_count) := by
  have h : get_extremity_length (mkBranch ((0 : ℝ), (0 : ℝ)) 3 0 2 2 1 2 1)
      < 0 := by
    norm_num [get_extremity_length, mkBranch]
  exact ⟨h, branch_draws_despite_negative_extremity _ h⟩

/-- Claim C6 counterexample: with center (0,0), radius 2, length 25, θ = 60°,
the code places cell (1, 0) at x = 0 while the claimed formula (row offset
i·(2r+L) along direction −θ contributing to both coordinates) puts it at
x = 29/2; the two center computations disagree at this cell. -/
theorem block_center_counterexample :
    (get_block_center
        ⟨(2, 2), ((0 : ℝ), (0 : ℝ)), 2, 25, 60, 2, 1.2, 2.33, 6.33, 4.83,
          false⟩ (1, 0)).1 = 0 ∧
    (spec_block_center
        ⟨(2, 2), ((0 : ℝ), (0 : ℝ)), 2, 25, 60, 2, 1.2, 2.33, 6.33, 4.83,
          false⟩ (1, 0)).1 = 29 / 2 ∧
    get_block_center
        ⟨(2, 2), ((0 : ℝ), (0 : ℝ)), 2, 25, 60, 2, 1.2, 2.33, 6.33, 4.83,
          false⟩ (1, 0) ≠
      spec_block_center
        ⟨(2, 2), ((0 : ℝ), (0 : ℝ)), 2, 25, 60, 2, 1.2, 2.33, 6.33, 4.83,
          false⟩ (1, 0) := by
  have h1 : (get_block_center
      ⟨(2, 2), ((0 : ℝ), (0 : ℝ)), 2, 25, 60, 2, 1.2, 2.33, 6.33, 4.83,
        false⟩ (1, 0)).1 = 0 := by
    norm_num [get_block_center, end_point_of_line]
  have h2 : (spec_block_center
      ⟨(2, 2), ((0 : ℝ), (0 : ℝ)), 2, 25, 60, 2, 1.2, 2.33, 6.33, 4.83,
        false⟩ (1, 0)).1 = 29 / 2 := by
    norm_num [spec_block_center, dir_vec, vector_sum, vector_multiply]
    have h : (-(60 * π) : ℝ) / 180 = -(π / 3) := by ring
    rw [h, Real.cos_neg, Real.cos_pi_div_three]
    norm_num
  refine ⟨h1, h2, fun hcontra => ?_⟩
  have := congrArg Prod.fst hcontra
  rw [h1, h2] at this
  norm_num at this

/-- Claim C6 (amended): the row offset contributes only to the y coordinate;
the block center of cell (i, j) is
(origin.x + j · 2 cos θ (length + 2 radius) + stagger,
 origin.y − i · (2 radius + length) · sin θ), where the stagger
(2 radius + length) cos θ is added exactly for even-indexed rows. -/
theorem block_center_formula (t : TessData) (pos : ℤ × ℤ) :
    get_block_center t pos =
      (t.center.1 + (pos.2 : ℝ) * 2 * Real.cos (t.angle * π / 180)
          * (t.length + 2 * t.radius)
        + (if pos.1 % 2 = 0 then
            (2 * t.radius + t.length) * Real.cos (t.angle * π / 180) else 0),
       t.center.2 - (pos.1 : ℝ) * (2 * t.radius + t.length)
         * Real.sin (t.angle * π / 180)) := by
  have hneg : (-t.angle) * π / 180 = -(t.angle * π / 180) := by ring
  simp only [get_block_center, end_point_of_line, hneg, Real.sin_neg]
  by_cases h : pos.1 % 2 = 0 <;>
    simp only [h, if_true, if_false, Prod.ext_iff, ite_true, ite_false] <;>
    constructor <;> simp <;> ring

/-- The sink-threaded beam loop only appends: its result is the initial sink
followed by the primitives of the pure beam loop. -/
lemma draw_beams_state_eq (b : BranchData) (ang : ℝ) :
    ∀ fuel i sp s, draw_beams_state b ang fuel i sp s =
      s ++ draw_beams b ang fuel i sp := by
  intro fuel
  induction fuel with
  | zero => intro i sp s; simp [draw_beams_state, draw_beams]
  | succ n ih =>
    intro i sp s
    rw [draw_beams_state, draw_beams]
    split_ifs <;> simp [ih]

/-- Claim C10: constructing a branch sets end_point to start plus length
times the unit direction of the angle in degrees, and drawing mutates only
the shared sink (appending the branch primitives); every field of the branch
is unchanged by the draw. -/
theorem branch_draw_frame :
    (∀ (sp : Point) (len ang : ℝ) (bc : ℕ) (pg bg bl bw : ℝ),
      (mkBranch sp len ang bc pg bg bl bw).position = sp ∧
      (mkBranch sp len ang bc pg bg bl bw).end_point =
        (sp.1 + len * Real.cos (ang * π / 180),
         sp.2 + len * Real.sin (ang * π / 180)) ∧
      (mkBranch sp len ang bc pg bg bl bw).length = len ∧
      (mkBranch sp len ang bc pg bg bl bw).angle = ang ∧
      (mkBranch sp len ang bc pg bg bl bw).beam_count = bc) ∧
    (∀ (b : BranchData) (s : List Prim),
      (draw_branch_state b s).1 = b ∧
      (draw_branch_state b s).2 = s ++ draw_branch b) := by
  constructor
  · intro sp len ang bc pg bg bl bw
    exact ⟨rfl, rfl, rfl, rfl, rfl⟩
  · intro b s
    constructor
    · rfl
    · simp only [draw_branch_state, draw_branch, draw_beams_state_eq]
      simp [List.append_assoc]

/-- Test: the primitive is a dxf.line. -/
def prim_is_line : Prim → Bool
  | Prim.line _ _ => true
  | Prim.polyline _ => false

/-- Test: the primitive is a dxf.polyline. -/
def prim_is_polyline : Prim → Bool
  | Prim.line _ _ => false
  | Prim.polyline _ => true

/-- Test: the primitive is a polyline with exactly n points. -/
def prim_is_polyline_of_size (n : ℕ) : Prim → Bool
  | Prim.line _ _ => false
  | Prim.polyline pts => pts.length == n

lemma deg_cos_add_90 (a : ℝ) :
    Real.cos ((a + 90) * π / 180) = -Real.sin (a * π / 180) := by
  have h : (a + 90) * π / 180 = a * π / 180 + π / 2 := by ring
  rw [h, Real.cos_add_pi_div_two]

lemma deg_sin_add_90 (a : ℝ) :
    Real.sin ((a + 90) * π / 180) = Real.cos (a * π / 180) := by
  have h : (a + 90) * π / 180 = a * π / 180 + π / 2 := by ring
  rw [h, Real.sin_add_pi_div_two]

lemma deg_cos_sub_90 (a : ℝ) :
    Real.cos ((a - 90) * π / 180) = Real.sin (a * π / 180) := by
  have h : (a - 90) * π / 180 = a * π / 180 - π / 2 := by ring
  rw [h, Real.cos_sub_pi_div_two]

lemma deg_sin_sub_90 (a : ℝ) :
    Real.sin ((a - 90) * π / 180) = -Real.cos (a * π / 180) := by
  have h : (a - 90) * π / 180 = a * π / 180 - π / 2 := by ring
  rw [h, Real.sin_sub_pi_div_two]

lemma deg_cos_add_180 (a : ℝ) :
    Real.cos ((a + 180) * π / 180) = -Real.cos (a * π / 180) := by
  have h : (a + 180) * π / 180 = a * π / 180 + π := by ring
  rw [h, Real.cos_add_pi]

lemma deg_sin_add_180 (a : ℝ) :
    Real.sin ((a + 180) * π / 180) = -Real.sin (a * π / 180) := by
  have h : (a + 180) * π / 180 = a * π / 180 + π := by ring
  rw [h, Real.sin_add_pi]

lemma deg_cos_sub_180 (a : ℝ) :
    Real.cos ((a - 180) * π / 180) = -Real.cos (a * π / 180) := by
  have h : (a - 180) * π / 180 = a * π / 180 - π := by ring
  rw [h, Real.cos_sub_pi]

lemma deg_sin_sub_180 (a : ℝ) :
    Real.sin ((a - 180) * π / 180) = -Real.sin (a * π / 180) := by
  have h : (a - 180) * π / 180 = a * π / 180 - π := by ring
  rw [h, Real.sin_sub_pi]

/-- The walking start point of the tape loop is the first slot corner. -/
lemma tape_start_eq_slot_origin (b : BranchData) :
    tape_beam_starting_point b (get_extremity_length b) =
      tape_slot_origin b 0 := by
  simp only [tape_beam_starting_point, tape_slot_origin, end_point_of_line,
    dir_vec, vector_sum, vector_multiply, deg_cos_sub_90, deg_sin_sub_90,
    deg_cos_add_90, deg_sin_add_90, Prod.ext_iff]
  constructor <;> push_cast <;> ring

/-- Advancing one slot pitch moves to the next slot corner. -/
lemma tape_slot_origin_step (b : BranchData) (k : ℕ) :
    end_point_of_line (tape_slot_origin b k)
        (b.beam_length + b.beam_gap) b.angle =
      tape_slot_origin b (k + 1) := by
  simp only [tape_slot_origin, end_point_of_line, dir_vec, vector_sum,
    vector_multiply, Prod.ext_iff]
  constructor <;> push_cast <;> ring

/-- Walking the four corner offsets from a slot corner traces exactly the
closed rectangle of that slot. -/
lemma tape_walk_eq_slot_spec (b : BranchData) (k : ℕ) :
    Prim.polyline [tape_slot_origin b k,
      (tape_beam_points b (tape_slot_origin b k)).1,
      (tape_beam_points b (tape_slot_origin b k)).2.1,
      (tape_beam_points b (tape_slot_origin b k)).2.2.1,
      (tape_beam_points b (tape_slot_origin b k)).2.2.2] =
    Prim.polyline (tape_slot_spec b k) := by
  simp only [tape_beam_points, tape_slot_spec, end_point_of_line, dir_vec,
    vector_sum, vector_multiply, deg_cos_add_90, deg_sin_add_90,
    deg_cos_sub_90, deg_sin_sub_90, deg_cos_add_180, deg_sin_add_180]
  norm_num [Prod.ext_iff]
  repeat' constructor
  all_goals ring

/-- The tape loop starting at slot k produces the slots k, k+1, … in order. -/
lemma draw_tape_beams_eq (b : BranchData) :
    ∀ fuel k, draw_tape_beams b fuel (tape_slot_origin b k) =
      (List.range fuel).map fun m => Prim.polyline (tape_slot_spec b (k + m)) := by
  intro fuel
  induction fuel with
  | zero => intro k; simp [draw_tape_beams]
  | succ n ih =>
    intro k
    rw [draw_tape_beams, List.range_succ_eq_map]
    rw [tape_slot_origin_step]
    simp only [List.map_cons, List.map_map, Function.comp]
    congr 1
    · have := tape_walk_eq_slot_spec b k
      simpa using this
    · rw [ih (k + 1)]
      apply List.map_congr_left
      intro m _
      have h2 : k + 1 + m = k + (m + 1) := by omega
      simp [h2]

/-- Claim C7: the tape-style branch emits exactly beam_count primitives, all
closed full-width rectangular slot polylines of width beam_width and length
beam_length, the k-th slot offset by k·(beam_length + beam_gap) along the
branch axis, and no line primitives (no separate extremity lines). -/
theorem tape_branch_slots (b : BranchData) :
    draw_branch_tape b = ((List.range b.beam_count).map
      fun k => Prim.polyline (tape_slot_spec b k)) ∧
    (draw_branch_tape b).length = b.beam_count ∧
    List.countP prim_is_line (draw_branch_tape b) = 0 := by
  have h : draw_branch_tape b = ((List.range b.beam_count).map
      fun k => Prim.polyline (tape_slot_spec b k)) := by
    rw [draw_branch_tape, tape_start_eq_slot_origin]
    have := draw_tape_beams_eq b b.beam_count 0
    simpa using this
  refine ⟨h, ?_, ?_⟩
  · rw [h]; simp
  · rw [h, List.countP_map]
    simp [Function.comp, prim_is_line]

/-- normalize_vector succeeds on any vector of positive squared norm. -/
lemma normalize_vector_some (v : Point) (h : 0 < v.1 ^ 2 + v.2 ^ 2) :
    ∃ d, normalize_vector v = some d := by
  simp only [normalize_vector]
  rw [if_neg (Real.sqrt_ne_zero'.mpr h)]
  exact ⟨_, rfl⟩

/-- The support strut drawn at a hub branch point always succeeds when the
radius or the panel gap is nonzero: both normalized vectors come from points
at squared distance radius² + (panel_gap/2)² from the hub center, because the
radial direction is orthogonal to the ±90° offset directions. -/
lemma branch_center_support_some (c : Point) (r pg a : ℝ)
    (h : r ≠ 0 ∨ pg ≠ 0) :
    ∃ l, branch_center_support c (end_point_of_line c r a) a pg r = some l ∧
      l.length = 3 := by
  have hpos : 0 < r ^ 2 + (pg / 2) ^ 2 := by
    rcases h with h | h
    · have h1 : 0 < r ^ 2 := by positivity
      nlinarith [sq_nonneg (pg / 2)]
    · have h1 : 0 < (pg / 2) ^ 2 := by positivity
      nlinarith [sq_nonneg r]
  have hv1 : (vector_difference c (end_point_of_line
      (end_point_of_line c r a) (pg / 2) (a - 90))).1 ^ 2 +
      (vector_difference c (end_point_of_line
      (end_point_of_line c r a) (pg / 2) (a - 90))).2 ^ 2 =
      r ^ 2 + (pg / 2) ^ 2 := by
    simp only [vector_difference, end_point_of_line, deg_cos_sub_90,
      deg_sin_sub_90]
    linear_combination (r ^ 2 + (pg / 2) ^ 2) *
      Real.sin_sq_add_cos_sq (a * π / 180)
  have hv2 : (vector_difference c (end_point_of_line
      (end_point_of_line c r a) (pg / 2) (a + 90))).1 ^ 2 +
      (vector_difference c (end_point_of_line
      (end_point_of_line c r a) (pg / 2) (a + 90))).2 ^ 2 =
      r ^ 2 + (pg / 2) ^ 2 := by
    simp only [vector_difference, end_point_of_line, deg_cos_add_90,
      deg_sin_add_90]
    linear_combination (r ^ 2 + (pg / 2) ^ 2) *
      Real.sin_sq_add_cos_sq (a * π / 180)
  obtain ⟨d1, hd1⟩ := normalize_vector_some
    (vector_difference c (end_point_of_line
      (end_point_of_line c r a) (pg / 2) (a - 90)))
    (by rw [hv1]; exact hpos)
  obtain ⟨d2, hd2⟩ := normalize_vector_some
    (vector_difference c (end_point_of_line
      (end_point_of_line c r a) (pg / 2) (a + 90)))
    (by rw [hv2]; exact hpos)
  simp only [branch_center_support]
  rw [hd1, hd2]
  exact ⟨_, rfl, rfl⟩

/-- The branch position list evaluated at a direction index below 6. -/
lemma block_positions_getD (bb : BlockData) (i : ℕ) (hi : i < 6) :
    (block_branch_positions bb).getD i ((0 : ℝ), (0 : ℝ)) =
      end_point_of_line bb.center bb.radius
        ((block_angles bb.angle).getD i 0) := by
  interval_cases i <;> rfl

/-- One direction of a non-tape building block always draws: the branch part
(4 + 2·beam_count primitives when activated, none otherwise) followed by the
3-line support strut. -/
lemma block_dir_prims_some (bb : BlockData) (i : ℕ) (st : Bool)
    (htape : bb.tape = false) (hr : bb.radius ≠ 0 ∨ bb.panel_gap ≠ 0)
    (hi : i < 6) :
    ∃ l, block_dir_prims bb i st = some l ∧
      l.length = (if st then 4 + 2 * bb.beam_count else 0) + 3 := by
  obtain ⟨l3, h3, hlen3⟩ := branch_center_support_some bb.center bb.radius
    bb.panel_gap ((block_angles bb.angle).getD i 0) hr
  cases st
  · simp only [block_dir_prims, htape, block_positions_getD bb i hi,
      Bool.false_eq_true, if_false, ite_false]
    rw [h3]
    exact ⟨_, rfl, by simp [hlen3]⟩
  · simp only [block_dir_prims, htape, block_positions_getD bb i hi,
      Bool.false_eq_true, if_false, ite_false, if_true, ite_true]
    rw [h3]
    refine ⟨_, rfl, ?_⟩
    simp [length_draw_branch, hlen3, mkBranch]

/-- The enumerate loop of the building block, evaluated: it concatenates the
per-direction primitive lists in index order. -/
lemma draw_block_aux_eq (bb : BlockData) (htape : bb.tape = false)
    (hr : bb.radius ≠ 0 ∨ bb.panel_gap ≠ 0) :
    ∀ (mask : List Bool) (i : ℕ), i + mask.length ≤ 6 →
      draw_block_aux bb i mask =
        some (((mask.enumFrom i).map fun p =>
          (block_dir_prims bb p.1 p.2).getD []).flatten) := by
  intro mask
  induction mask with
  | nil => intro i _; simp [draw_block_aux, List.enumFrom]
  | cons st rest ih =>
    intro i hle
    have hi : i < 6 := by simp at hle; omega
    obtain ⟨l, hl, _⟩ := block_dir_prims_some bb i st htape hr hi
    have hrest : i + 1 + rest.length ≤ 6 := by simp at hle; omega
    rw [draw_block_aux, hl, ih (i + 1) hrest]
    simp [List.enumFrom, hl]

/-- A non-tape building block with a mask of at most six entries draws all
its directions in index order. -/
lemma draw_building_block_eq (bb : BlockData) (htape : bb.tape = false)
    (hr : bb.radius ≠ 0 ∨ bb.panel_gap ≠ 0)
    (hlen : bb.activated_branch.length ≤ 6) :
    draw_building_block bb =
      some (((bb.activated_branch.enum).map fun p =>
        (block_dir_prims bb p.1 p.2).getD []).flatten) := by
  unfold draw_building_block
  rw [draw_block_aux_eq bb htape hr bb.activated_branch 0 (by omega)]
  rfl

/-- The beam loop emits no line primitives. -/
lemma countP_draw_beams_line (b : BranchData) (ang : ℝ) :
    ∀ fuel i sp, List.countP prim_is_line (draw_beams b ang fuel i sp) = 0 := by
  intro fuel
  induction fuel with
  | zero => intro i sp; rfl
  | succ n ih =>
    intro i sp
    rw [draw_beams]
    split_ifs <;> simp [List.countP_cons, ih, prim_is_line]

/-- Every iteration of the beam loop emits exactly one polyline. -/
lemma countP_draw_beams_poly (b : BranchData) (ang : ℝ) :
    ∀ fuel i sp,
      List.countP prim_is_polyline (draw_beams b ang fuel i sp) = fuel := by
  intro fuel
  induction fuel with
  | zero => intro i sp; rfl
  | succ n ih =>
    intro i sp
    rw [draw_beams]
    split_ifs <;> simp [List.countP_cons, ih, prim_is_polyline]

/-- In one side's beam walk all units are 5-point polylines except the last,
which has 4 points. -/
lemma countP_draw_beams_size (b : BranchData) (ang : ℝ) :
    ∀ fuel i sp, i + fuel = b.beam_count → 1 ≤ fuel →
      List.countP (prim_is_polyline_of_size 5)
          (draw_beams b ang fuel i sp) = fuel - 1 ∧
      List.countP (prim_is_polyline_of_size 4)
          (draw_beams b ang fuel i sp) = 1 := by
  intro fuel
  induction fuel with
  | zero => intro i sp _ hle; omega
  | succ n ih =>
    intro i sp hinv _
    rw [draw_beams]
    by_cases h : i < b.beam_count - 1
    · have hn : 1 ≤ n := by omega
      obtain ⟨ih5, ih4⟩ := ih (i + 1)
        (end_point_of_line (beam_points b sp ang).2.2 b.beam_gap b.angle)
        (by omega) hn
      rw [if_pos h]
      constructor
      · simp [List.countP_cons, prim_is_polyline_of_size, ih5]
        omega
      · simp [List.countP_cons, prim_is_polyline_of_size, ih4]
    · have hn : n = 0 := by omega
      subst hn
      rw [if_neg h]
      constructor
      · simp [List.countP_cons, prim_is_polyline_of_size, draw_beams]
      · simp [List.countP_cons, prim_is_polyline_of_size, draw_beams]

/-- Claim C4: one cut-style branch emits exactly 4 line primitives and
2·beam_count polylines; with at least one beam per side the last unit of each
side has 4 points and all 2·(beam_count−1) other units have 5; a non-tape
building block with all six branches active and beam_count = 2 emits
6·(4+4) = 48 branch primitives plus 6·3 = 18 strut lines, 66 in total. -/
theorem branch_and_block_primitive_counts :
    (∀ b : BranchData,
      List.countP prim_is_line (draw_branch b) = 4 ∧
      List.countP prim_is_polyline (draw_branch b) = 2 * b.beam_count) ∧
    (∀ b : BranchData, 1 ≤ b.beam_count →
      List.countP (prim_is_polyline_of_size 5) (draw_branch b) =
        2 * (b.beam_count - 1) ∧
      List.countP (prim_is_polyline_of_size 4) (draw_branch b) = 2) ∧
    (∀ bb : BlockData, bb.tape = false →
      bb.activated_branch = List.replicate 6 true → bb.beam_count = 2 →
      (bb.radius ≠ 0 ∨ bb.panel_gap ≠ 0) →
      ∃ l, draw_building_block bb = some l ∧ l.length = 66) := by
  refine ⟨?_, ?_, ?_⟩
  · intro b
    constructor
    · simp [draw_branch, List.countP_append, extremity_line_prims,
        List.countP_cons, prim_is_line, countP_draw_beams_line]
    · simp [draw_branch, List.countP_append, extremity_line_prims,
        List.countP_cons, prim_is_polyline, countP_draw_beams_poly]
      ring
  · intro b hb
    obtain ⟨h5, h4⟩ := countP_draw_beams_size b (b.angle + 90) b.beam_count 0
      (beam_starting_point b (b.angle + 90) (get_extremity_length b))
      (by omega) hb
    obtain ⟨h5', h4'⟩ := countP_draw_beams_size b (b.angle - 90) b.beam_count 0
      (beam_starting_point b (b.angle - 90) (get_extremity_length b))
      (by omega) hb
    constructor
    · simp [draw_branch, List.countP_append, extremity_line_prims,
        List.countP_cons, prim_is_polyline_of_size, h5, h5']
      omega
    · simp [draw_branch, List.countP_append, extremity_line_prims,
        List.countP_cons, prim_is_polyline_of_size, h4, h4']
  · intro bb htape hmask hbc hr
    have hlen : bb.activated_branch.length ≤ 6 := by rw [hmask]; simp
    have hmain := draw_building_block_eq bb htape hr hlen
    obtain ⟨l0, e0, n0⟩ := block_dir_prims_some bb 0 true htape hr (by omega)
    obtain ⟨l1, e1, n1⟩ := block_dir_prims_some bb 1 true htape hr (by omega)
    obtain ⟨l2, e2, n2⟩ := block_dir_prims_some bb 2 true htape hr (by omega)
    obtain ⟨l3, e3, n3⟩ := block_dir_prims_some bb 3 true htape hr (by omega)
    obtain ⟨l4, e4, n4⟩ := block_dir_prims_some bb 4 true htape hr (by omega)
    obtain ⟨l5, e5, n5⟩ := block_dir_prims_some bb 5 true htape hr (by omega)
    refine ⟨_, hmain, ?_⟩
    rw [hmask]
    simp [List.replicate, List.enum, List.enumFrom, e0, e1, e2, e3, e4, e5]
    simp only [hbc] at n0 n1 n2 n3 n4 n5
    simp at n0 n1 n2 n3 n4 n5
    omega

/-- Witness for Claim C4 at the end-to-end scenario parameters: radius 2,
length 25, angle 60, beam_count 2, all six branches active, cut style. -/
theorem branch_and_block_primitive_counts_witness :
    1 ≤ (mkBranch ((0 : ℝ), (0 : ℝ)) 25 0 2 1.2 2.33 6.33 4.83).beam_count ∧
    List.countP (prim_is_polyline_of_size 5)
      (draw_branch (mkBranch ((0 : ℝ), (0 : ℝ)) 25 0 2 1.2 2.33 6.33 4.83)) =
      2 * ((mkBranch ((0 : ℝ), (0 : ℝ)) 25 0 2 1.2 2.33 6.33 4.83).beam_count
        - 1) ∧
    List.countP (prim_is_polyline_of_size 4)
      (draw_branch (mkBranch ((0 : ℝ), (0 : ℝ)) 25 0 2 1.2 2.33 6.33 4.83)) =
      2 ∧
    ((⟨((0 : ℝ), (0 : ℝ)), 2, 25, 60, 2, List.replicate 6 true, 1.2, 2.33,
        6.33, 4.83, false⟩ : BlockData).radius ≠ 0 ∨
      (⟨((0 : ℝ), (0 : ℝ)), 2, 25, 60, 2, List.replicate 6 true, 1.2, 2.33,
        6.33, 4.83, false⟩ : BlockData).panel_gap ≠ 0) ∧
    (∃ l, draw_building_block
        (⟨((0 : ℝ), (0 : ℝ)), 2, 25, 60, 2, List.replicate 6 true, 1.2, 2.33,
          6.33, 4.83, false⟩ : BlockData) = some l ∧ l.length = 66) := by
  have h := branch_and_block_primitive_counts
  have hb : 1 ≤ (mkBranch ((0 : ℝ), (0 : ℝ)) 25 0 2 1.2 2.33 6.33
      4.83).beam_count := by
    norm_num [mkBranch]
  have hr : ((⟨((0 : ℝ), (0 : ℝ)), 2, 25, 60, 2, List.replicate 6 true, 1.2,
      2.33, 6.33, 4.83, false⟩ : BlockData).radius ≠ 0 ∨
      (⟨((0 : ℝ), (0 : ℝ)), 2, 25, 60, 2, List.replicate 6 true, 1.2, 2.33,
        6.33, 4.83, false⟩ : BlockData).panel_gap ≠ 0) :=
    Or.inl (by norm_num)
  exact ⟨hb, (h.2.1 _ hb).1, (h.2.1 _ hb).2, hr, h.2.2 _ rfl rfl rfl hr⟩

/-- The computed activation mask always has six entries. -/
lemma length_compute_activated_branch (size pos : ℤ × ℤ) :
    (compute_activated_branch size pos).length = 6 := by
  simp only [compute_activated_branch]
  split_ifs <;> simp

/-- The inner column loop of the tessellation, evaluated: the cells of one
row in increasing column order. -/
lemma draw_cols_eq (t : TessData) (htape : t.tape = false)
    (hr : t.radius ≠ 0 ∨ t.panel_gap ≠ 0) (i : ℕ) :
    ∀ fuel j, draw_cols t i j fuel =
      some (((List.range fuel).map fun m =>
        (draw_building_block (tess_block t i (j + m))).getD []).flatten) := by
  intro fuel
  induction fuel with
  | zero => intro j; simp [draw_cols]
  | succ n ih =>
    intro j
    have hb := draw_building_block_eq (tess_block t i j) htape hr
      (by simp [tess_block, length_compute_activated_branch])
    rw [draw_cols, hb, ih (j + 1), List.range_succ_eq_map]
    simp only [List.map_cons, List.map_map, Function.comp, Nat.add_zero,
      List.flatten_cons, hb, Option.getD_some, Option.some.injEq]
    congr 2
    apply List.map_congr_left
    intro m _
    have h2 : j + 1 + m = j + (m + 1) := by omega
    simp [h2]

/-- The outer row loop of the tessellation, evaluated: the rows in
increasing order, each row in increasing column order. -/
lemma draw_rows_eq (t : TessData) (htape : t.tape = false)
    (hr : t.radius ≠ 0 ∨ t.panel_gap ≠ 0) :
    ∀ fuel i, draw_rows t i fuel =
      some (((List.range fuel).map fun m =>
        ((List.range t.size.2).map fun j =>
          (draw_building_block (tess_block t (i + m) j)).getD
            []).flatten).flatten) := by
  intro fuel
  induction fuel with
  | zero => intro i; simp [draw_rows]
  | succ n ih =>
    intro i
    rw [draw_rows, draw_cols_eq t htape hr i t.size.2 0, ih (i + 1),
      List.range_succ_eq_map]
    simp only [List.map_cons, List.map_map, Function.comp, Nat.add_zero,
      Nat.zero_add, List.flatten_cons, Option.some.injEq]
    congr 2
    apply List.map_congr_left
    intro m _
    have h2 : i + 1 + m = i + (m + 1) := by omega
    simp [h2]

/-- Claim C8: generation is a pure function of the pattern parameters (equal
parameters give an identical primitive sequence), and the sequence follows
the fixed traversal order: rows outermost, then columns, then per-cell branch
order by direction index — each block's list concatenated in row-major
order. -/
theorem tesselation_deterministic_row_major :
    (∀ t t' : TessData, t = t' → draw_tesselation t = draw_tesselation t') ∧
    (∀ t : TessData, t.tape = false → (t.radius ≠ 0 ∨ t.panel_gap ≠ 0) →
      draw_tesselation t = some (((List.range t.size.1).map fun i =>
        ((List.range t.size.2).map fun j =>
          (draw_building_block (tess_block t i j)).getD
            []).flatten).flatten)) ∧
    (∀ bb : BlockData, bb.tape = false → bb.activated_branch.length ≤ 6 →
      (bb.radius ≠ 0 ∨ bb.panel_gap ≠ 0) →
      draw_building_block bb = some ((bb.activated_branch.enum.map fun p =>
        (block_dir_prims bb p.1 p.2).getD []).flatten)) := by
  refine ⟨fun t t' h => by rw [h], ?_,
    fun bb h1 h2 h3 => draw_building_block_eq bb h1 h3 h2⟩
  intro t ht hr
  rw [draw_tesselation, draw_rows_eq t ht hr t.size.1 0]
  simp only [Nat.zero_add]

/-- Witness for Claim C8 at a concrete 2×2 tessellation with radius 2,
length 25, angle 60, beam_count 2, cut style. -/
theorem tesselation_deterministic_row_major_witness :
    ((⟨(2, 2), ((0 : ℝ), (0 : ℝ)), 2, 25, 60, 2, 1.2, 2.33, 6.33, 4.83,
        false⟩ : TessData).tape = false) ∧
    ((⟨(2, 2), ((0 : ℝ), (0 : ℝ)), 2, 25, 60, 2, 1.2, 2.33, 6.33, 4.83,
        false⟩ : TessData).radius ≠ 0 ∨
      (⟨(2, 2), ((0 : ℝ), (0 : ℝ)), 2, 25, 60, 2, 1.2, 2.33, 6.33, 4.83,
        false⟩ : TessData).panel_gap ≠ 0) ∧
    draw_tesselation
        (⟨(2, 2), ((0 : ℝ), (0 : ℝ)), 2, 25, 60, 2, 1.2, 2.33, 6.33, 4.83,
          false⟩ : TessData) =
      some (((List.range
          (⟨(2, 2), ((0 : ℝ), (0 : ℝ)), 2, 25, 60, 2, 1.2, 2.33, 6.33, 4.83,
            false⟩ : TessData).size.1).map fun i =>
        ((List.range
            (⟨(2, 2), ((0 : ℝ), (0 : ℝ)), 2, 25, 60, 2, 1.2, 2.33, 6.33,
              4.83, false⟩ : TessData).size.2).map fun j =>
          (draw_building_block (tess_block
            (⟨(2, 2), ((0 : ℝ), (0 : ℝ)), 2, 25, 60, 2, 1.2, 2.33, 6.33,
              4.83, false⟩ : TessData) i j)).getD []).flatten).flatten) ∧
    draw_tesselation
        (⟨(2, 2), ((0 : ℝ), (0 : ℝ)), 2, 25, 60, 2, 1.2, 2.33, 6.33, 4.83,
          false⟩ : TessData) =
      draw_tesselation
        (⟨(2, 2), ((0 : ℝ), (0 : ℝ)), 2, 25, 60, 2, 1.2, 2.33, 6.33, 4.83,
          false⟩ : TessData) := by
  have h := tesselation_deterministic_row_major
  exact ⟨rfl, Or.inl (by norm_num), h.2.1 _ rfl (Or.inl (by norm_num)),
    h.1 _ _ rfl⟩

end Yoshimura
